import Mathlib

/-!
Verification development for the patient/astronaut rehabilitation monitoring
dashboard (source: src/website2.py).  The file shallowly embeds the parts of
the program that the specification claims are about:

* the string-level cell operations that pandas performs on the spreadsheet
  data (numeric coercion with errors=coerce, datetime parsing with the
  default errors=raise, column access raising KeyError on a missing column);
* the KPI preprocessing of the effective page handler, the second definition
  of the function named extra_page (source lines 750-1031), which overrides
  the first one;
* the assignment, registration and login logic (assign_doctor,
  register_action, login_action);
* the phase-dependent threshold classifier.  The classifier exists in the
  repository only as prompt text handed to the external narrative generator,
  so it is modelled from the spec (see the doc comments further down).

Machine floats are modelled as exact rationals, a spreadsheet cell as a
string, a dataframe row as an association list from column names to cells.
-/

/-! ## String helpers: the embeddings of Python str.strip and str.lower -/

/-- Leading-whitespace removal on character lists. -/
def trimL (l : List Char) : List Char := l.dropWhile Char.isWhitespace

/-- Trailing-whitespace removal on character lists. -/
def trimR (l : List Char) : List Char := (trimL l.reverse).reverse

/-- Embedding of Python str.strip: drop leading and trailing whitespace. -/
def strip (s : String) : String := ⟨trimR (trimL s.data)⟩

/-- Embedding of Python str.lower (ASCII case folding, which is all the
repository stores). -/
def lowerStr (s : String) : String := ⟨s.data.map Char.toLower⟩

/-- The case-insensitive patient/user key the source computes with
str(x).strip().lower(). -/
def userKey (s : String) : String := lowerStr (strip s)

/-! ## Kernel-computable rational arithmetic

The Batteries arithmetic on `Rat` is irreducible, so the embedding performs
its arithmetic through `mkRat` and the `num`/`den` projections, which do
reduce; the bridge lemmas right below identify these operations with the
ordinary field operations on `ℚ`, and the claim statements use the ordinary
operations. -/

/-- Addition on `ℚ` through `mkRat` (kernel-computable). -/
def qadd (a b : ℚ) : ℚ := mkRat (a.num * b.den + b.num * a.den) (a.den * b.den)

/-- Division of a rational by a natural number through `mkRat`. -/
def qdivNat (a : ℚ) (n : ℕ) : ℚ := mkRat a.num (a.den * n)

/-- Multiplication of a rational by a natural number through `mkRat`. -/
def qmulNat (a : ℚ) (n : ℕ) : ℚ := mkRat (a.num * n) a.den

/-- Strict comparison on `ℚ` by cross multiplication (kernel-computable). -/
def qltB (a b : ℚ) : Bool := decide (a.num * b.den < b.num * a.den)

/-- Non-strict comparison on `ℚ` by cross multiplication. -/
def qleB (a b : ℚ) : Bool := decide (a.num * b.den ≤ b.num * a.den)

/-! ## Numeric coercion: pd.to_numeric(column, errors=coerce)

pandas turns every cell that does not read as a number into NaN; NaN is the
Unavailable sentinel of the spec and is modelled as `none`. -/

/-- Value of a big-endian list of decimal digit characters. -/
def digitsVal (cs : List Char) : ℕ := cs.foldl (fun a c => 10 * a + (c.toNat - 48)) 0

/-- Embedding of pd.to_numeric(_, errors=coerce) on one cell: optional sign,
decimal digits with at most one point, anything else coerces to NaN/none.
The value of sign.ip.fp is sign * (ip * 10 ^ |fp| + fp) / 10 ^ |fp|. -/
def toNumeric (s : String) : Option ℚ :=
  let cs := (strip s).data
  let sgn : ℤ := match cs with
    | c :: _ => if c = ('-') then -1 else 1
    | [] => 1
  let body : List Char := match cs with
    | c :: rest => if c = ('-') || c = ('+') then rest else cs
    | [] => []
  if body.all (fun c => c.isDigit || c == ('.')) && body.count ('.') ≤ 1
      && body.any Char.isDigit then
    let ip := body.takeWhile (fun c => c != ('.'))
    let fp := (body.dropWhile (fun c => c != ('.'))).drop 1
    some (mkRat (sgn * ((digitsVal ip : ℤ) * 10 ^ fp.length + (digitsVal fp : ℤ))) (10 ^ fp.length))
  else none

/-! ## Rounding: Series.round(2)

numpy rounds half to even; the source rounds the grip-force mean to two
decimals. -/

/-- Round a rational to the nearest integer, ties to even (numpy rounding).
With n = floor q the fractional part q - n equals (q.num - n * q.den)/q.den,
so comparing it against 1/2 is comparing 2 * (q.num - n * q.den) against
q.den. -/
def roundHalfEven (q : ℚ) : ℤ :=
  let n := q.floor
  let r2 := 2 * (q.num - n * q.den)
  if r2 < (q.den : ℤ) then n
  else if (q.den : ℤ) < r2 then n + 1
  else if n % 2 = 0 then n else n + 1

/-- Round to two decimals, ties to even: the embedding of Series.round(2). -/
def round2 (q : ℚ) : ℚ := mkRat (roundHalfEven (qmulNat q 100)) 100

/-! ## Timestamp parsing: pd.to_datetime(column) with the default errors=raise

The repository only ever writes timestamps through
datetime.now().strftime("%Y-%m-%d %H:%M:%S") (source line 339), so the
embedding parses exactly that fixed-width format; an empty cell (how
gspread returns a blank spreadsheet cell) is missing data and becomes NaT,
modelled as `none`; any other string makes pd.to_datetime raise, because the
call at source line 777 does not pass errors=coerce (unlike the calls at
lines 419 and 558). -/

/-- One pattern character: d matches a decimal digit, anything else matches
itself. -/
def matchPat : List Char → List Char → Bool
  | [], [] => true
  | p :: ps, c :: cs =>
      (if p = ('d') then c.isDigit else c == p) && matchPat ps cs
  | _, _ => false

/-- The fixed timestamp layout YYYY-MM-DD HH:MM:SS. -/
def tsPattern : List Char := ("dddd-dd-dd dd:dd:dd").data

/-- Chronological sort key of a well-formed timestamp: the concatenation of
its digits read as one number (monotone in time for this fixed-width
layout). -/
def tsDigitsKey (cs : List Char) : ℕ :=
  cs.foldl (fun a c => if c.isDigit then 10 * a + (c.toNat - 48) else a) 0

/-- Errors pandas raises while preprocessing: a missing column (KeyError) or
an unparseable timestamp (the ValueError/ParserError of pd.to_datetime). -/
inductive PdErr
  | keyError (col : String)
  | parseError (val : String)
deriving DecidableEq

/-- Embedding of pd.to_datetime on one cell under the default errors=raise:
empty cell gives NaT (`none`), the canonical layout parses, everything else
raises. -/
def pdToDatetime (s : String) : Except PdErr (Option ℕ) :=
  if s = ("") then .ok none
  else if matchPat tsPattern s.data then .ok (some (tsDigitsKey s.data))
  else .error (.parseError s)

/-! ## Rows, cells, column access -/

/-- A spreadsheet cell as delivered by Worksheet.get_all_records. -/
abbrev Cell := String

/-- A dataframe row: association list from column names to cells.  In a real
dataframe the set of columns is uniform across rows; the claims below only
ever use uniform rows. -/
abbrev Row := List (String × Cell)

/-- Column access df[col] on one row: KeyError when the column is absent. -/
def getCell (r : Row) (c : String) : Except PdErr Cell :=
  match r.find? (fun p => p.1 == c) with
  | some p => .ok p.2
  | none => .error (.keyError c)

instance exceptDecEq {ε α : Type} [DecidableEq ε] [DecidableEq α] : DecidableEq (Except ε α)
  | .ok a, .ok b => if h : a = b then .isTrue (by rw [h]) else .isFalse (by simp [h])
  | .ok _, .error _ => .isFalse (by simp)
  | .error _, .ok _ => .isFalse (by simp)
  | .error e, .error f => if h : e = f then .isTrue (by rw [h]) else .isFalse (by simp [h])

/-! ## Week labels: "W" + str(i+1) (source line 779) -/

/-- Big-endian decimal digits of a positive number, by fuel recursion (the
fuel n itself always suffices). -/
def natDigitsAux : ℕ → ℕ → List Char
  | 0, _ => []
  | _ + 1, 0 => []
  | fuel + 1, n + 1 => natDigitsAux fuel ((n + 1) / 10) ++ [Nat.digitChar ((n + 1) % 10)]

/-- Embedding of Python str(n) for a natural number. -/
def natStr (n : ℕ) : String := if n = 0 then ("0") else ⟨natDigitsAux n n⟩

/-- The week label the source builds with "W" + str(i+1). -/
def mkWeek (n : ℕ) : String := ("W") ++ natStr n

/-! ## Sorting key order: df.sort_values(Timestamp) with NaT last

pandas sorts ascending with missing timestamps placed last (na_position is
last by default).  The tie order among equal keys is implementation-defined
in pandas (quicksort); the embedding uses insertion sort, and no claim below
depends on the tie order. -/

/-- Key comparison: parse keys ascending, NaT (`none`) after everything. -/
def tsLEb : Option ℕ → Option ℕ → Bool
  | some x, some y => decide (x ≤ y)
  | some _, none => true
  | none, some _ => false
  | none, none => true

/-- The row order used by sort_values on the tagged rows. -/
def tsOrd : (Option ℕ × Row) → (Option ℕ × Row) → Prop := fun a b => tsLEb a.1 b.1 = true

/-- The key order on the output column of timestamps. -/
def tsLE (a b : Option ℕ) : Prop := tsLEb a b = true

instance : DecidableRel tsOrd := fun _ _ => instDecidableEqBool _ _

instance : IsTotal (Option ℕ × Row) tsOrd := by
  constructor
  intro a b
  rcases a with ⟨x, _⟩; rcases b with ⟨y, _⟩
  rcases x with _ | x <;> rcases y with _ | y <;> simp [tsOrd, tsLEb]
  exact Nat.le_total x y

instance : IsTrans (Option ℕ × Row) tsOrd := by
  constructor
  intro a b c hab hbc
  rcases a with ⟨x, _⟩; rcases b with ⟨y, _⟩; rcases c with ⟨z, _⟩
  rcases x with _ | x <;> rcases y with _ | y <;> rcases z with _ | z <;>
    simp_all [tsOrd, tsLEb]
  omega

/-! ## Stage 1 of the KPI preprocessing (source lines 776-782)

df_a[Timestamp] = pd.to_datetime(df_a[Timestamp]); df_a = df_a.sort_values
(Timestamp); df_a[Week] = ["W" + str(i+1) ...]; df_a[Phase] = "P1";
df_a[Adherence (%)] = 100. -/

/-- One row of the frame after stage 1 of the preprocessing. -/
structure SRow where
  tsKey : Option ℕ
  rank : ℕ
  week : String
  phase : String
  adherence : ℚ
  cells : Row
deriving DecidableEq

/-- Attach the positional week label and the constant phase/adherence
columns to the i-th row (0-based) of the sorted frame. -/
def mkSRow (i : ℕ) (p : Option ℕ × Row) : SRow :=
  ⟨p.1, i + 1, mkWeek (i + 1), ("P1"), 100, p.2⟩

/-- Positional labelling of the whole sorted frame. -/
def withRanks : ℕ → List (Option ℕ × Row) → List SRow
  | _, [] => []
  | i, p :: rest => mkSRow i p :: withRanks (i + 1) rest

/-- Parse the Timestamp cell of one row; raises on a missing column or a
malformed non-empty timestamp, exactly like the source call at line 777. -/
def tagTs (r : Row) : Except PdErr (Option ℕ × Row) := do
  let c ← getCell r ("Timestamp")
  let t ← pdToDatetime c
  pure (t, r)

/-- Stage 1: parse all timestamps, sort, attach Week/Phase/Adherence. -/
def aggStage1 (rows : List Row) : Except PdErr (List SRow) := do
  let tagged ← rows.mapM tagTs
  pure (withRanks 0 (List.insertionSort tsOrd tagged))

/-- The timestamp key of a row whose Timestamp cell parses. -/
def tsKeyOfRow (r : Row) : Option ℕ :=
  match getCell r ("Timestamp") with
  | .ok c =>
    match pdToDatetime c with
    | .ok t => t
    | .error _ => none
  | .error _ => none

/-- Whether the Timestamp cell of a row is present and parses (possibly as
NaT). -/
def tsOkB (r : Row) : Bool :=
  match getCell r ("Timestamp") with
  | .ok c =>
    match pdToDatetime c with
    | .ok _ => true
    | .error _ => false
  | .error _ => false

/-- The tagged frame in sorted order, for inputs whose timestamps all
parse. -/
def sortedTagged (rows : List Row) : List (Option ℕ × Row) :=
  List.insertionSort tsOrd (rows.map (fun r => (tsKeyOfRow r, r)))

/-- The stage-1 output on inputs whose timestamps all parse. -/
def aggModel (rows : List Row) : List SRow := withRanks 0 (sortedTagged rows)

/-! ## Grip force (source lines 784-789)

The five force columns are coerced with pd.to_numeric(errors=coerce) and
averaged row-wise with Series.mean, which skips NaN entries and returns NaN
when no entry is available; the result is rounded to two decimals.  The
NaN-skipping sum and count are modelled as single folds, the way pandas
computes a row mean. -/

/-- NaN-skipping sum of a row of optional values. -/
def nanSum (vs : List (Option ℚ)) : ℚ :=
  vs.foldl (fun a v => match v with | some x => qadd a x | none => a) 0

/-- NaN-skipping count of a row of optional values. -/
def nanCount (vs : List (Option ℚ)) : ℕ :=
  vs.foldl (fun a v => match v with | some _ => a + 1 | none => a) 0

/-- Row-wise Series.mean(skipna).round(2): NaN when no value is available,
otherwise the mean of the available values rounded to two decimals. -/
def pandasMeanR2 (vs : List (Option ℚ)) : Option ℚ :=
  if nanCount vs = 0 then none
  else some (round2 (qdivNat (nanSum vs) (nanCount vs)))

/-- The five force columns, in the order of the source list force_cols. -/
def forceCols : List String :=
  [("TH_Force"), ("IN_Force"), ("MT_Force"), ("RI_Force"), ("PT_Force")]

/-- Read the five force cells of one row (KeyError if a column is absent). -/
def rowForces (r : Row) : Except PdErr (List Cell) := forceCols.mapM (getCell r)

/-- The grip-force computation of source lines 784-789 on one row. -/
def computeGrip (r : Row) : Except PdErr (Option ℚ) := do
  let cs ← rowForces r
  pure (pandasMeanR2 (cs.map toNumeric))

/-! ## Stage 2 (source lines 784-800) and the full preprocessing

After the grip force, the source sets the five placeholder metrics to the
string "N/A" (lines 792-796) and then reads the columns Fatigue_Scale and
Pain_Scale (lines 799-800).  In a pandas frame every row has the same
columns, so the per-row interleaving below raises the same first error as
the column-at-a-time source on the uniform frames all claims use. -/

/-- One row of the final 11-column KPI schema (final_cols, lines 803-809). -/
structure KpiRow where
  week : String
  phase : String
  adherence : ℚ
  grip : Option ℚ
  vrError : String
  comBos : String
  alarm : String
  spike : String
  tts : String
  fatigue : Cell
  pain : Cell
deriving DecidableEq

/-- Stage 2: grip force, placeholder metrics, fatigue/pain mapping. -/
def aggStage2 (l : List SRow) : Except PdErr (List KpiRow) :=
  l.mapM (fun s => do
    let cs ← rowForces s.cells
    let fat ← getCell s.cells ("Fatigue_Scale")
    let pai ← getCell s.cells ("Pain_Scale")
    pure { week := s.week, phase := s.phase, adherence := s.adherence,
           grip := pandasMeanR2 (cs.map toNumeric),
           vrError := ("N/A"), comBos := ("N/A"), alarm := ("N/A"),
           spike := ("N/A"), tts := ("N/A"), fatigue := fat, pain := pai })

/-- The whole KPI preprocessing of the effective extra_page
(source lines 776-809). -/
def preprocessKpi (rows : List Row) : Except PdErr (List KpiRow) := do
  let s1 ← aggStage1 rows
  aggStage2 s1

/-! ## The rendered page (source lines 750-1031)

The effective extra_page is modelled as a function from its inputs to the
list of page elements it renders.  Streamlit semantics for an uncaught
exception: the script run stops, the elements already delivered in this run
stay on the page, and the exception is displayed where it occurred; this is
what happens at the pd.to_datetime/KeyError sites and at the two
client_genai.models.generate_content calls (lines 920 and 1024), neither of
which is wrapped in try/except in the effective extra_page (only the dead
first definition at lines 469-478 has one).  User edits in st.data_editor
are modelled as the identity; the two buttons are the two Bool arguments;
the external generator is the function argument gen. -/

/-- Failures of the external narrative generator. -/
inductive AiErr
  | aiUnavailable
  | aiRequestFailed
deriving DecidableEq

/-- The message Streamlit displays for an uncaught generator exception. -/
def aiMsg : AiErr → String
  | .aiUnavailable => ("AI generator not configured")
  | .aiRequestFailed => ("AI request failed")

/-- The message Streamlit displays for an uncaught pandas exception. -/
def pdMsg : PdErr → String
  | .keyError c => ("KeyError: ") ++ c
  | .parseError v => ("Unable to parse timestamp: ") ++ v

/-- One row of the frame after the numeric re-coercion of lines 819-826.
The VR-error column is not in the numeric_cols list of the source, so it
keeps its string value. -/
structure KpiNum where
  week : String
  phase : String
  adherence : Option ℚ
  grip : Option ℚ
  vrError : String
  comBos : Option ℚ
  alarm : Option ℚ
  spike : Option ℚ
  tts : Option ℚ
  fatigue : Option ℚ
  pain : Option ℚ
deriving DecidableEq

/-- The re-coercion pd.to_numeric(errors=coerce) of lines 819-826 applied
to the (unedited) editable table. -/
def recoerce (k : KpiRow) : KpiNum :=
  { week := k.week, phase := k.phase, adherence := some k.adherence, grip := k.grip,
    vrError := k.vrError, comBos := toNumeric k.comBos, alarm := toNumeric k.alarm,
    spike := toNumeric k.spike, tts := toNumeric k.tts,
    fatigue := toNumeric k.fatigue, pain := toNumeric k.pain }

/-- Serialization of a rational for the CSV handed to the generator. -/
def optQStr : Option ℚ → String
  | none => ("")
  | some q => (if q.num < 0 then ("-") else ("")) ++ natStr q.num.natAbs ++ ("/") ++ natStr q.den

/-- One CSV line of the KPI frame. -/
def kpiNumLine (k : KpiNum) : String :=
  k.week ++ (",") ++ k.phase ++ (",") ++ optQStr k.adherence ++ (",") ++ optQStr k.grip
    ++ (",") ++ k.vrError ++ (",") ++ optQStr k.comBos ++ (",") ++ optQStr k.alarm
    ++ (",") ++ optQStr k.spike ++ (",") ++ optQStr k.tts ++ (",") ++ optQStr k.fatigue
    ++ (",") ++ optQStr k.pain

/-- df_a.to_csv for the KPI frame. -/
def csvOfKpiNum (l : List KpiNum) : String := String.intercalate ("\n") (l.map kpiNumLine)

/-- The free-text question prompt (prompt1, lines 835-917).  Note the
source interpolates only the message into prompt1; the CSV data is computed
into the variable summary afterwards and never inserted. -/
def qaPrompt (message : String) : String :=
  ("You are a Clinical Rehabilitation Analytics System. Answer the message below. ") ++ message

/-- The analysis prompt (lines 950-1023), which embeds the CSV data. -/
def kpiPrompt (csv : String) : String :=
  ("You are a Clinical Rehabilitation Analytics System. INPUT CSV DATA: ") ++ csv

/-- Case-insensitive substring test, the embedding of
Series.str.contains(name, case=False, na=False) for the plain-text patient
names this repository stores. -/
def containsSub (hay needle : String) : Bool :=
  (List.range (hay.data.length + 1)).any (fun i => needle.data.isPrefixOf (hay.data.drop i))

/-- Whether a row survives the patient-name filter. -/
def usernameMatch (name : String) (r : Row) : Bool :=
  match getCell r ("Username") with
  | .ok u => containsSub (lowerStr u) (lowerStr name)
  | .error _ => false

/-- The patient-name filter of line 765: no filtering on an empty query. -/
def filterByName (name : String) (df : List Row) : List Row :=
  if name = ("") then df else df.filter (usernameMatch name)

/-- A rendered page element. -/
inductive Elem
  | header (s : String)
  | info (s : String)
  | rawTable (rows : List Row)
  | kpiTable (rows : List KpiRow)
  | kpiNumTable (rows : List KpiNum)
  | narrative (s : String)
  | errBox (s : String)
deriving DecidableEq

/-- The page header text. -/
def pageTitle : String := ("AI KPI Analytics")

/-- The empty-data notice of line 758. -/
def noDataMsg : String := ("No data yet. Please add patient data first.")

/-- The rendered element list of the effective extra_page. -/
def extraPage (df : List Row) (search message : String) (sendMsg runAnalysis : Bool)
    (gen : String → Except AiErr String) : List Elem :=
  if df.isEmpty then [Elem.header pageTitle, Elem.info noDataMsg]
  else
    let dfF := filterByName search df
    let base := [Elem.header pageTitle, Elem.rawTable dfF]
    match preprocessKpi dfF with
    | .error e => base ++ [Elem.errBox (pdMsg e)]
    | .ok kpi =>
      let kpiN := kpi.map recoerce
      let b2 := base ++ [Elem.kpiTable kpi, Elem.kpiNumTable kpiN]
      if sendMsg then
        match gen (qaPrompt message) with
        | .error e => b2 ++ [Elem.errBox (aiMsg e)]
        | .ok t =>
          let b3 := b2 ++ [Elem.narrative t]
          if runAnalysis then
            match gen (kpiPrompt (csvOfKpiNum kpiN)) with
            | .error e => b3 ++ [Elem.errBox (aiMsg e)]
            | .ok t2 => b3 ++ [Elem.narrative t2]
          else b3
      else
        if runAnalysis then
          match gen (kpiPrompt (csvOfKpiNum kpiN)) with
          | .error e => b2 ++ [Elem.errBox (aiMsg e)]
          | .ok t2 => b2 ++ [Elem.narrative t2]
        else b2

/-! ## The threshold classifier (spec sections 4.3 and the source prompt)

The repository contains no executable classifier: the Green/Yellow/Red
banding is delegated to the external narrative generator, and the threshold
table exists in the source only as prompt text (lines 874-877 and 988-992).
The definitions below are therefore modelled from the spec, grounded in
that prompt text. -/

/-- Rehabilitation phase. -/
inductive Phase
  | p1
  | p2
  | p3
  | p4
deriving DecidableEq

/-- The four stability-type metrics of the threshold table. -/
inductive StabMetric
  | alarmRate
  | comBos
  | maxAngleSpike
  | vrErrorRate
deriving DecidableEq

/-- Classification band. -/
inductive Band
  | green
  | yellow
  | red
  | notApplicable
deriving DecidableEq

/-- Modelled from the spec: the METRIC THRESHOLDS (ALERT MODEL) table that
the source states only as prompt text (lines 988-992) and the spec
reproduces in section 4.3.  For each metric and phase this gives the pair
(Green upper boundary g, Yellow upper break point y): Green is value < g,
Yellow is g <= value <= y, Red is value > y.  Rows the table does not give
(phase 1 for the first three metrics) have no boundaries. -/
def bounds : StabMetric → Phase → Option (ℚ × ℚ)
  | .alarmRate, .p2 => some (mkRat 2 10, mkRat 5 10)
  | .alarmRate, .p3 => some (mkRat 5 100, mkRat 1 10)
  | .alarmRate, .p4 => some (mkRat 5 100, mkRat 1 10)
  | .comBos, .p2 => some (1, 2)
  | .comBos, .p3 => some (1, 2)
  | .comBos, .p4 => some (mkRat 1 2, 1)
  | .maxAngleSpike, .p2 => some (mkRat 3 2, mkRat 5 2)
  | .maxAngleSpike, .p3 => some (1, mkRat 3 2)
  | .maxAngleSpike, .p4 => some (1, mkRat 3 2)
  | .vrErrorRate, .p1 => some (3, 6)
  | .vrErrorRate, .p2 => some (3, 6)
  | .vrErrorRate, .p3 => some (mkRat 1 2, 1)
  | .vrErrorRate, .p4 => some (mkRat 1 2, 1)
  | _, .p1 => none

/-- Modelled from the spec: the ThresholdClassifier of spec section 4.3,
which the repository delegates to the external generator.  An Unavailable
value classifies NotApplicable regardless of phase; a metric/phase pair
without boundaries also classifies NotApplicable. -/
def classify (m : StabMetric) (p : Phase) (v : Option ℚ) : Band :=
  match v with
  | none => .notApplicable
  | some x =>
    match bounds m p with
    | none => .notApplicable
    | some (g, y) => if qltB x g then .green else if qleB x y then .yellow else .red

/-! ## Assignment store: assign_doctor (source lines 188-203)

The persistent store is the Assignments sheet, a list of (Patient, Doctor)
rows.  load_assignments (lines 160-167) strips both fields; assign_doctor
filters out every loaded row whose patient key (lowercased) matches the
stripped lowercased new patient, appends the raw new pair, and writes the
result back. -/

/-- load_assignments: both columns stripped. -/
def load_assignments (store : List (String × String)) : List (String × String) :=
  store.map (fun r => (strip r.1, strip r.2))

/-- assign_doctor: the new content of the Assignments sheet. -/
def assign_doctor (patient doctor : String) (store : List (String × String)) :
    List (String × String) :=
  let dfA := load_assignments store
  let key := lowerStr (strip patient)
  let kept := dfA.filter (fun r => lowerStr r.1 != key)
  kept ++ [(patient, doctor)]

/-- The case-insensitive patient key of one stored assignment row. -/
def rowPatientKey (r : String × String) : String := userKey r.1

/-- The store invariant: at most one row per case-insensitive patient key. -/
def atMostOnePerPatient (store : List (String × String)) : Prop :=
  (store.map rowPatientKey).Nodup

/-! ## Users sheet: register_action (lines 294-312) and login_action
(lines 263-287) -/

/-- One row of the Users sheet (or of the Doctors sheet, restricted to the
three columns the login path reads). -/
structure UserRow where
  username : String
  password : String
  role : String
deriving DecidableEq

/-- load_users (lines 132-144): Username stripped, Role stripped and
lowercased. -/
def load_users (rows : List UserRow) : List UserRow :=
  rows.map (fun u => { u with username := strip u.username, role := lowerStr (strip u.role) })

/-- The outcome messages of register_action. -/
inductive RegMsg
  | warnMissing
  | warnMismatch
  | errDuplicate
  | okRegistered
deriving DecidableEq

/-- register_action: returns the new Users sheet and the message shown.
The username is stripped on read (line 295); the passwords are compared
raw; the duplicate check lowercases both sides (line 305); on success
save_user appends (username, password, patient). -/
def register_action (regUser regPass regConfirm : String) (users : List UserRow) :
    List UserRow × RegMsg :=
  let username := strip regUser
  if username = ("") || regPass = ("") then (users, .warnMissing)
  else if regPass != regConfirm then (users, .warnMismatch)
  else
    let df := load_users users
    if (df.map (fun u => lowerStr u.username)).contains (lowerStr username) then
      (users, .errDuplicate)
    else
      (users ++ [⟨username, regPass, ("patient")⟩], .okRegistered)

/-- login_action: match the username case-insensitively (stripped and
lowercased on both sides) first in the Users sheet, then in the Doctors
sheet; then compare the stripped stored password of the first matching row
with the stripped entered password. -/
def login_action (u p : String) (users doctors : List UserRow) : Bool :=
  let dfU := load_users users
  let key := userKey u
  let m1 := dfU.filter (fun r => userKey r.username == key)
  let m := if m1.isEmpty then doctors.filter (fun r => userKey r.username == key) else m1
  match m.head? with
  | none => false
  | some row => strip row.password == strip p

/-! ## Further helper lemmas for the claim theorems -/

/-- The Username cell of a row (empty for a missing column). -/
def usernameOf (r : Row) : String :=
  match getCell r ("Username") with
  | .ok u => u
  | .error _ => ("")

/-! ## Claim C1: the grip-force average -/

/-- Concrete five force cells: two coercible values, three unavailable. -/
def forcesC1 : List Cell := [(""), ("2"), ("abc"), ("4"), ("")]

/-- A concrete row carrying the force cells of forcesC1. -/
def rowC1 : Row :=
  [(("TH_Force"), ("")), (("IN_Force"), ("2")), (("MT_Force"), ("abc")),
   (("RI_Force"), ("4")), (("PT_Force"), (""))]

/-! ## Claim C2: the weekly aggregation -/

/-- A record with the canonical Data-sheet columns but a timestamp
pd.to_datetime cannot parse. -/
def rowBadTs : Row :=
  [(("Timestamp"), ("yesterday morning")), (("Username"), ("p1")),
   (("IN"), ("10")), (("MT"), ("10")), (("RI"), ("10")), (("PT"), ("10")), (("TH"), ("10")),
   (("IN_Force"), ("1")), (("MT_Force"), ("1")), (("RI_Force"), ("1")),
   (("PT_Force"), ("1")), (("TH_Force"), ("1")),
   (("Pain"), ("2")), (("Fatigue"), ("3")), (("Notes"), (""))]

/-- Two concrete records (listed out of time order) with parseable
timestamps. -/
def rowsW2 : List Row :=
  [[(("Timestamp"), ("2024-02-05 09:00:00")), (("Username"), ("p1")), (("TH_Force"), ("1"))],
   [(("Timestamp"), ("2024-01-01 10:00:00")), (("Username"), ("p1")), (("TH_Force"), ("2"))]]

/-! ## Claim C9: week labels are global, not per patient -/

/-- Two concrete records of two different patients whose usernames both
contain the (case-insensitive) search string "ar". -/
def dfW9 : List Row :=
  [[(("Timestamp"), ("2024-02-05 09:00:00")), (("Username"), ("maria"))],
   [(("Timestamp"), ("2024-01-01 10:00:00")), (("Username"), ("Mark"))]]

/-! ## Claim C3: the preprocessing raises on its own canonical schema -/

/-- A fully well-formed record with exactly the columns the repository
itself declares for the Data sheet (source line 71) and writes in
patient_page (lines 338-347). -/
def rowGood : Row :=
  [(("Timestamp"), ("2024-01-01 10:00:00")), (("Username"), ("p1")),
   (("IN"), ("10")), (("MT"), ("11")), (("RI"), ("12")), (("PT"), ("13")), (("TH"), ("14")),
   (("IN_Force"), ("1")), (("MT_Force"), ("2")), (("RI_Force"), ("3")),
   (("PT_Force"), ("4")), (("TH_Force"), ("5")),
   (("Pain"), ("2")), (("Fatigue"), ("3")), (("Notes"), ("ok"))]

/-! ## Claim C6: generator failure does not disturb the tabular report -/

/-- A concrete dataframe containing the columns the effective extra_page
reads, including Fatigue_Scale and Pain_Scale. -/
def dfW6 : List Row :=
  [[(("Timestamp"), ("2024-01-01 10:00:00")), (("Username"), ("p1")),
    (("IN_Force"), ("1")), (("MT_Force"), ("2")), (("RI_Force"), ("3")),
    (("PT_Force"), ("4")), (("TH_Force"), ("5")),
    (("Fatigue_Scale"), ("4")), (("Pain_Scale"), ("2"))]]

/-- The KPI frame the preprocessing computes on dfW6. -/
def kpiW6 : List KpiRow :=
  [{ week := ("W1"), phase := ("P1"), adherence := 100, grip := some 3,
     vrError := ("N/A"), comBos := ("N/A"), alarm := ("N/A"), spike := ("N/A"),
     tts := ("N/A"), fatigue := ("4"), pain := ("2") }]

/-! ## Claim C7: assign_doctor keeps at most one doctor per patient -/

/-- A concrete store: one prior assignment for the same patient written
with different case and padding, one for another patient. -/
def storeW7 : List (String × String) :=
  [((" Alice "), ("drX")), (("bob"), ("drY"))]

/-! ## Claim C8: register_action rejects invalid registrations -/

/-- A concrete Users sheet with one stored user. -/
def usersW8 : List UserRow := [⟨("Alice"), ("pw1"), ("patient")⟩]

/-! ## Claim C10: the login predicate -/

/-- The per-row transformation load_users applies. -/
def loadUserRow (u : UserRow) : UserRow :=
  { u with username := strip u.username, role := lowerStr (strip u.role) }

/-- One stored credential row. -/
def usersW10 : List UserRow := [⟨("Alice"), ("pw"), ("patient")⟩]

/-! ## Theorems

The lemmas and claim theorems for the definitions above, in the order of
the sections they belong to. -/

theorem qadd_eq (a b : ℚ) : qadd a b = a + b := by
  have ha : (a.den : ℚ) ≠ 0 := by exact_mod_cast a.den_nz
  have hb : (b.den : ℚ) ≠ 0 := by exact_mod_cast b.den_nz
  rw [qadd, Rat.mkRat_eq_div]
  push_cast
  conv_rhs => rw [← Rat.num_div_den a, ← Rat.num_div_den b]
  rw [div_add_div _ _ ha hb]
  ring

theorem qdivNat_eq (a : ℚ) (n : ℕ) : qdivNat a n = a / n := by
  rw [qdivNat, Rat.mkRat_eq_div]
  push_cast
  conv_rhs => rw [← Rat.num_div_den a]
  rw [div_div]

theorem qmulNat_eq (a : ℚ) (n : ℕ) : qmulNat a n = a * n := by
  have ha : (a.den : ℚ) ≠ 0 := by exact_mod_cast a.den_nz
  rw [qmulNat, Rat.mkRat_eq_div]
  push_cast
  conv_rhs => rw [← Rat.num_div_den a]
  rw [div_mul_eq_mul_div]

theorem qltB_iff (a b : ℚ) : qltB a b = true ↔ a < b := by
  rw [qltB, decide_eq_true_iff]
  rw [show a < b ↔ (a.num : ℚ)/a.den < (b.num : ℚ)/b.den by rw [Rat.num_div_den, Rat.num_div_den]]
  rw [div_lt_div_iff₀ (by exact_mod_cast a.den_pos) (by exact_mod_cast b.den_pos)]
  exact_mod_cast Iff.rfl

theorem qleB_iff (a b : ℚ) : qleB a b = true ↔ a ≤ b := by
  rw [qleB, decide_eq_true_iff]
  rw [show a ≤ b ↔ (a.num : ℚ)/a.den ≤ (b.num : ℚ)/b.den by rw [Rat.num_div_den, Rat.num_div_den]]
  rw [div_le_div_iff₀ (by exact_mod_cast a.den_pos) (by exact_mod_cast b.den_pos)]
  exact_mod_cast Iff.rfl

theorem digitsVal_append (cs : List Char) (c : Char) :
    digitsVal (cs ++ [c]) = 10 * digitsVal cs + (c.toNat - 48) := by
  simp [digitsVal, List.foldl_append]

theorem digitChar_toNat (d : ℕ) (h : d < 10) : (Nat.digitChar d).toNat = 48 + d := by
  interval_cases d <;> decide

theorem digitsVal_natDigitsAux :
    ∀ fuel n, n ≤ fuel → digitsVal (natDigitsAux fuel n) = n := by
  intro fuel
  induction fuel with
  | zero =>
    intro n hn
    interval_cases n
    simp [natDigitsAux, digitsVal]
  | succ f ih =>
    intro n hn
    cases n with
    | zero => simp [natDigitsAux, digitsVal]
    | succ m =>
      rw [natDigitsAux, digitsVal_append, ih _ (by omega), digitChar_toNat _ (Nat.mod_lt _ (by omega))]
      omega

theorem digitsVal_natStr (n : ℕ) : digitsVal (natStr n).data = n := by
  by_cases h : n = 0
  · subst h; decide
  · rw [natStr, if_neg h]
    exact digitsVal_natDigitsAux n n le_rfl

theorem data_append (a b : String) : (a ++ b).data = a.data ++ b.data := by
  cases a; cases b; rfl

theorem strData_inj {a b : String} (h : a.data = b.data) : a = b := by
  cases a; cases b; exact congrArg String.mk (by simpa using h)

theorem mkWeek_injective : Function.Injective mkWeek := by
  intro m n h
  have hd : ('W') :: (natStr m).data = ('W') :: (natStr n).data := by
    have := congrArg String.data h
    rwa [mkWeek, mkWeek, data_append, data_append] at this
  have : (natStr m).data = (natStr n).data := by simpa using hd
  have := congrArg digitsVal this
  rwa [digitsVal_natStr, digitsVal_natStr] at this

theorem tagTs_ok (r : Row) (h : tsOkB r = true) : tagTs r = .ok (tsKeyOfRow r, r) := by
  cases hg : getCell r ("Timestamp") with
  | error e => simp [tsOkB, hg] at h
  | ok c =>
    cases hp : pdToDatetime c with
    | error e => simp [tsOkB, hg, hp] at h
    | ok t =>
      simp only [tagTs, hg]
      show (fun a => (a, r)) <$> pdToDatetime c = Except.ok (tsKeyOfRow r, r)
      rw [hp]
      simp [tsKeyOfRow, hg, hp, Except.map]

theorem mapM_tagTs : ∀ rows : List Row, rows.all tsOkB = true →
    rows.mapM tagTs = .ok (rows.map (fun r => (tsKeyOfRow r, r))) := by
  intro rows h
  induction rows with
  | nil => rfl
  | cons a l ih =>
    rw [List.all_cons, Bool.and_eq_true] at h
    rw [List.mapM_cons, tagTs_ok a h.1, ih h.2]
    rfl

theorem aggStage1_ok (rows : List Row) (h : rows.all tsOkB = true) :
    aggStage1 rows = .ok (aggModel rows) := by
  rw [aggStage1, mapM_tagTs rows h]
  rfl

theorem withRanks_length : ∀ (i : ℕ) (l : List (Option ℕ × Row)),
    (withRanks i l).length = l.length := by
  intro i l
  induction l generalizing i with
  | nil => rfl
  | cons p rest ih => simp [withRanks, ih]

theorem withRanks_week : ∀ (i : ℕ) (l : List (Option ℕ × Row)),
    (withRanks i l).map (fun s => s.week) = (List.range' (i + 1) l.length).map mkWeek := by
  intro i l
  induction l generalizing i with
  | nil => rfl
  | cons p rest ih => simp [withRanks, List.range'_succ, mkSRow, ih]

theorem withRanks_rank : ∀ (i : ℕ) (l : List (Option ℕ × Row)),
    (withRanks i l).map (fun s => s.rank) = List.range' (i + 1) l.length := by
  intro i l
  induction l generalizing i with
  | nil => rfl
  | cons p rest ih => simp [withRanks, List.range'_succ, mkSRow, ih]

theorem withRanks_cells : ∀ (i : ℕ) (l : List (Option ℕ × Row)),
    (withRanks i l).map (fun s => s.cells) = l.map Prod.snd := by
  intro i l
  induction l generalizing i with
  | nil => rfl
  | cons p rest ih => simp [withRanks, mkSRow, ih]

theorem withRanks_tsKey : ∀ (i : ℕ) (l : List (Option ℕ × Row)),
    (withRanks i l).map (fun s => s.tsKey) = l.map Prod.fst := by
  intro i l
  induction l generalizing i with
  | nil => rfl
  | cons p rest ih => simp [withRanks, mkSRow, ih]

theorem sortedTagged_perm (rows : List Row) :
    (sortedTagged rows).Perm (rows.map (fun r => (tsKeyOfRow r, r))) :=
  List.perm_insertionSort tsOrd _

theorem sortedTagged_sorted (rows : List Row) :
    List.Sorted tsOrd (sortedTagged rows) :=
  List.sorted_insertionSort tsOrd _

theorem aggModel_tsKey_sorted (rows : List Row) :
    List.Sorted tsLE ((aggModel rows).map (fun s => s.tsKey)) := by
  rw [aggModel, withRanks_tsKey]
  exact List.Pairwise.map Prod.fst (fun a b h => h) (sortedTagged_sorted rows)

theorem nanSum_aux (vs : List (Option ℚ)) : ∀ a : ℚ,
    vs.foldl (fun a v => match v with | some x => qadd a x | none => a) a
      = a + (vs.filterMap id).sum := by
  induction vs with
  | nil => intro a; simp
  | cons v rest ih =>
    intro a
    cases v with
    | none => simp [List.foldl_cons, ih]
    | some x =>
      rw [List.foldl_cons]
      show List.foldl _ (qadd a x) rest = _
      rw [ih, qadd_eq]
      simp
      ring

theorem nanSum_eq (vs : List (Option ℚ)) : nanSum vs = (vs.filterMap id).sum := by
  rw [nanSum, nanSum_aux]; ring

theorem nanCount_aux (vs : List (Option ℚ)) : ∀ a : ℕ,
    vs.foldl (fun a v => match v with | some _ => a + 1 | none => a) a
      = a + (vs.filterMap id).length := by
  induction vs with
  | nil => intro a; simp
  | cons v rest ih =>
    intro a
    cases v with
    | none => simp [List.foldl_cons, ih]
    | some x => simp [List.foldl_cons, ih]; omega

theorem nanCount_eq (vs : List (Option ℚ)) : nanCount vs = (vs.filterMap id).length := by
  rw [nanCount, nanCount_aux]; omega

theorem dropWhile_idem (p : Char → Bool) (l : List Char) :
    (l.dropWhile p).dropWhile p = l.dropWhile p := by
  induction l with
  | nil => rfl
  | cons a t ih =>
    by_cases h : p a
    · simp [List.dropWhile_cons, h, ih]
    · simp [List.dropWhile_cons, h]

theorem trimL_idem (l : List Char) : trimL (trimL l) = trimL l :=
  dropWhile_idem _ l

theorem trimR_idem (l : List Char) : trimR (trimR l) = trimR l := by
  rw [trimR, trimR, trimL, trimL, List.reverse_reverse, dropWhile_idem]

theorem dropWhile_eq_self_of_head (p : Char → Bool) (l : List Char)
    (h : ∀ c, l.head? = some c → p c = false) : l.dropWhile p = l := by
  cases l with
  | nil => rfl
  | cons a t => simp [List.dropWhile_cons, h a rfl]

theorem head_trimL_not (l : List Char) :
    ∀ c, (trimL l).head? = some c → Char.isWhitespace c = false := by
  intro c h
  have := List.head?_dropWhile_not Char.isWhitespace l
  rw [trimL] at h
  rw [h] at this
  exact this

theorem head_trimR_of_head (l : List Char)
    (hl : ∀ c, l.head? = some c → Char.isWhitespace c = false) :
    ∀ c, (trimR l).head? = some c → Char.isWhitespace c = false := by
  intro c h
  rw [trimR, List.head?_reverse] at h
  obtain ⟨t, ht⟩ := @List.dropWhile_suffix Char l.reverse Char.isWhitespace
  have h2 : l.reverse.getLast? = some c := by
    rw [← ht, List.getLast?_append]
    rw [trimL] at h
    rw [h]
    rfl
  rw [List.getLast?_reverse] at h2
  exact hl c h2

theorem trimL_trimR (l : List Char)
    (hl : ∀ c, l.head? = some c → Char.isWhitespace c = false) :
    trimL (trimR l) = trimR l :=
  dropWhile_eq_self_of_head _ _ (head_trimR_of_head l hl)

theorem stripChars_idem (l : List Char) :
    trimR (trimL (trimR (trimL l))) = trimR (trimL l) := by
  rw [trimL_trimR (trimL l) (head_trimL_not l), trimR_idem]

theorem strip_idem (s : String) : strip (strip s) = strip s :=
  congrArg String.mk (stripChars_idem s.data)

theorem userKey_strip (s : String) : userKey (strip s) = userKey s := by
  rw [userKey, userKey, strip_idem]

theorem withRanks_week_rank : ∀ (i : ℕ) (l : List (Option ℕ × Row)) (s : SRow),
    s ∈ withRanks i l → s.week = mkWeek s.rank := by
  intro i l
  induction l generalizing i with
  | nil => intro s hs; simp [withRanks] at hs
  | cons p rest ih =>
    intro s hs
    rw [withRanks] at hs
    rcases List.mem_cons.mp hs with h | h
    · subst h; rfl
    · exact ih (i + 1) s h

theorem sortedTagged_length (rows : List Row) :
    (sortedTagged rows).length = rows.length := by
  calc (sortedTagged rows).length
      = (rows.map (fun r => (tsKeyOfRow r, r))).length := (sortedTagged_perm rows).length_eq
    _ = rows.length := List.length_map _ _

theorem aggModel_cells_perm (rows : List Row) :
    ((aggModel rows).map (fun s => s.cells)).Perm rows := by
  rw [aggModel, withRanks_cells]
  have h1 : ((sortedTagged rows).map Prod.snd).Perm
      ((rows.map (fun r => (tsKeyOfRow r, r))).map Prod.snd) :=
    (sortedTagged_perm rows).map Prod.snd
  have h2 : (rows.map (fun r => (tsKeyOfRow r, r))).map Prod.snd = rows := by
    rw [List.map_map]
    exact List.map_id'' (fun _ => rfl) rows
  rwa [h2] at h1

/-- C1: for every row whose five force cells are readable, the grip-force
result of source lines 784-789 is Unavailable (none) iff all five force
fields fail numeric coercion; otherwise it is the mean of exactly the
coercible fields, rounded to two decimals. -/
theorem grip_force_unavailable_iff (r : Row) (cs : List Cell)
    (h : rowForces r = .ok cs) :
    computeGrip r = .ok (pandasMeanR2 (cs.map toNumeric)) ∧
    (pandasMeanR2 (cs.map toNumeric) = none ↔ ∀ c ∈ cs, toNumeric c = none) ∧
    ((cs.map toNumeric).filterMap id ≠ [] →
      pandasMeanR2 (cs.map toNumeric) =
        some (round2 (((cs.map toNumeric).filterMap id).sum
          / ((cs.map toNumeric).filterMap id).length))) := by
  refine ⟨?_, ?_, ?_⟩
  · rw [computeGrip, h]; rfl
  · rw [pandasMeanR2]
    constructor
    · intro he c hcmem
      by_cases hc : nanCount (cs.map toNumeric) = 0
      · rw [nanCount_eq] at hc
        have hnil := List.filterMap_eq_nil_iff.mp (List.length_eq_zero.mp hc)
        exact hnil (toNumeric c) (List.mem_map_of_mem _ hcmem)
      · rw [if_neg hc] at he; simp at he
    · intro hall
      rw [if_pos]
      rw [nanCount_eq, List.length_eq_zero]
      exact List.filterMap_eq_nil_iff.mpr (by
        intro a ha
        obtain ⟨c, hc, rfl⟩ := List.mem_map.mp ha
        exact hall c hc)
  · intro hne
    rw [pandasMeanR2, if_neg, nanSum_eq, nanCount_eq, qdivNat_eq]
    rw [nanCount_eq, List.length_eq_zero]
    exact hne

theorem grip_force_unavailable_iff_witness :
    rowForces rowC1 = .ok forcesC1 ∧
    computeGrip rowC1 = .ok (pandasMeanR2 (forcesC1.map toNumeric)) :=
  ⟨by decide, (grip_force_unavailable_iff rowC1 forcesC1 (by decide)).1⟩

/-- C2 counterexample: on a one-record input whose timestamp is a malformed
non-empty string, the aggregation of source lines 776-779 raises (the
pd.to_datetime call uses the default errors=raise), so it does not produce
one output row per input record. -/
theorem week_agg_raises_on_malformed_timestamp :
    aggStage1 [rowBadTs] = .error (PdErr.parseError ("yesterday morning")) := by
  decide

/-- C2 (amended): for every non-empty record set in which every record has
a Timestamp cell that parses or is empty, the aggregation produces one row
per record; the week labels are "W" + (1-based rank), pairwise distinct,
with ranks strictly increasing in assigned order, and the rows are ordered
ascending by timestamp key with missing timestamps last. -/
theorem weekly_agg_props (rows : List Row) (hne : rows ≠ [])
    (h : rows.all tsOkB = true) :
    ∃ out, aggStage1 rows = .ok out ∧
      out.length = rows.length ∧
      out.map (fun s => s.week) = (List.range' 1 rows.length).map mkWeek ∧
      (out.map (fun s => s.week)).Nodup ∧
      out.map (fun s => s.rank) = List.range' 1 rows.length ∧
      List.Pairwise (· < ·) (out.map (fun s => s.rank)) ∧
      List.Sorted tsLE (out.map (fun s => s.tsKey)) := by
  have hlen : (sortedTagged rows).length = rows.length := sortedTagged_length rows
  refine ⟨aggModel rows, aggStage1_ok rows h, ?_, ?_, ?_, ?_, ?_, aggModel_tsKey_sorted rows⟩
  · rw [aggModel, withRanks_length, hlen]
  · rw [aggModel, withRanks_week, hlen]
  · rw [aggModel, withRanks_week, hlen]
    exact (List.nodup_range' 1 rows.length).map mkWeek_injective
  · rw [aggModel, withRanks_rank, hlen]
  · rw [aggModel, withRanks_rank, hlen]
    exact List.pairwise_lt_range' 1 rows.length

theorem weekly_agg_props_witness :
    rowsW2 ≠ [] ∧
    (∃ out, aggStage1 rowsW2 = .ok out ∧
      out.length = rowsW2.length ∧
      out.map (fun s => s.week) = (List.range' 1 rowsW2.length).map mkWeek ∧
      (out.map (fun s => s.week)).Nodup ∧
      out.map (fun s => s.rank) = List.range' 1 rowsW2.length ∧
      List.Pairwise (· < ·) (out.map (fun s => s.rank)) ∧
      List.Sorted tsLE (out.map (fun s => s.tsKey))) :=
  ⟨by decide, weekly_agg_props rowsW2 (by decide) (by decide)⟩

/-- C9: when the patient-name filter matches records of more than one
patient, the week labels are assigned by rank over the whole filtered
frame: the label column is exactly W1..Wn in combined sorted order, the
label "W1" occurs exactly once, and some matched patient has no row
labelled "W1" (so no per-patient restart happens). -/
theorem week_labels_global (df : List Row) (name : String)
    (h : (filterByName name df).all tsOkB = true)
    (htwo : ∃ r1 ∈ filterByName name df, ∃ r2 ∈ filterByName name df,
        usernameOf r1 ≠ usernameOf r2) :
    ∃ out, aggStage1 (filterByName name df) = .ok out ∧
      out.map (fun s => s.week)
        = (List.range' 1 (filterByName name df).length).map mkWeek ∧
      (out.map (fun s => s.week)).count (mkWeek 1) = 1 ∧
      ∃ s1 ∈ out, ∀ s2 ∈ out,
        usernameOf s2.cells = usernameOf s1.cells → s2.week ≠ mkWeek 1 := by
  set rows := filterByName name df with hrows
  obtain ⟨r1, hr1, r2, hr2, hneq⟩ := htwo
  have hlen : (sortedTagged rows).length = rows.length := sortedTagged_length rows
  have hn1 : 1 ≤ rows.length := by
    cases hr : rows with
    | nil => rw [hr] at hr1; simp at hr1
    | cons _ _ => simp
  refine ⟨aggModel rows, aggStage1_ok rows h, ?_, ?_, ?_⟩
  · rw [aggModel, withRanks_week, hlen]
  · rw [aggModel, withRanks_week, hlen]
    rw [List.count_map_of_injective _ mkWeek mkWeek_injective 1]
    refine List.count_eq_one_of_mem (List.nodup_range' 1 rows.length) ?_
    rw [List.mem_range'_1]
    omega
  · have hrankeq : (aggModel rows).map (fun s => s.rank) = List.range' 1 rows.length := by
      rw [aggModel, withRanks_rank, hlen]
    have hrnodup : ((aggModel rows).map (fun s => s.rank)).Nodup := by
      rw [hrankeq]; exact List.nodup_range' 1 rows.length
    have hinj := List.inj_on_of_nodup_map hrnodup
    have h1mem : 1 ∈ (aggModel rows).map (fun s => s.rank) := by
      rw [hrankeq, List.mem_range'_1]; omega
    obtain ⟨w, hw, hwrank⟩ := List.mem_map.mp h1mem
    have hcells := aggModel_cells_perm rows
    have key : ∀ r', r' ∈ rows → usernameOf r' ≠ usernameOf w.cells →
        ∃ s1 ∈ aggModel rows, ∀ s2 ∈ aggModel rows,
          usernameOf s2.cells = usernameOf s1.cells → s2.week ≠ mkWeek 1 := by
      intro r' hr' hdiff
      have hmem : r' ∈ (aggModel rows).map (fun s => s.cells) := hcells.mem_iff.mpr hr'
      obtain ⟨s1, hs1, hs1c⟩ := List.mem_map.mp hmem
      refine ⟨s1, hs1, ?_⟩
      intro s2 hs2 husr hweek
      have h2r : s2.week = mkWeek s2.rank := withRanks_week_rank 0 (sortedTagged rows) s2 hs2
      have hrank2 : s2.rank = 1 := mkWeek_injective (by rw [← h2r]; exact hweek)
      have hs2w : s2 = w := hinj hs2 hw (by rw [hrank2, hwrank])
      apply hdiff
      rw [← hs1c, ← husr, hs2w]
    by_cases hu : usernameOf r1 = usernameOf w.cells
    · refine key r2 hr2 ?_
      intro e
      exact hneq (by rw [hu, e])
    · exact key r1 hr1 hu

theorem week_labels_global_witness :
    (filterByName ("ar") dfW9).all tsOkB = true ∧
    (∃ out, aggStage1 (filterByName ("ar") dfW9) = .ok out ∧
      out.map (fun s => s.week)
        = (List.range' 1 (filterByName ("ar") dfW9).length).map mkWeek ∧
      (out.map (fun s => s.week)).count (mkWeek 1) = 1 ∧
      ∃ s1 ∈ out, ∀ s2 ∈ out,
        usernameOf s2.cells = usernameOf s1.cells → s2.week ≠ mkWeek 1) :=
  ⟨by decide, week_labels_global dfW9 ("ar") (by decide) (by decide)⟩

/-- C3: the preprocessing raises instead of normalizing.  On a well-formed
record carrying the declared Data-sheet columns it raises KeyError
(Fatigue_Scale) because lines 799-800 read Fatigue_Scale/Pain_Scale while
the sheet declares Fatigue/Pain; and on a record whose timestamp is a
malformed non-empty string it raises from pd.to_datetime, because line 777
omits errors=coerce (which the same codebase passes at lines 419 and 558).
The record is dropped, not retained with Unavailable fields. -/
theorem kpi_preprocess_raises :
    preprocessKpi [rowGood] = .error (PdErr.keyError ("Fatigue_Scale")) ∧
    preprocessKpi [rowBadTs] = .error (PdErr.parseError ("yesterday morning")) := by
  constructor <;> decide

/-- C6: whenever the page reaches the generator call (the preprocessing
succeeded), a failing generator leaves the rendered page equal to the
no-generator page plus a single trailing error element; the tabular report
(raw table, editable KPI table, re-coerced preview) is fully rendered and
identical in the success and failure runs, and only the trailing narrative
panel differs. -/
theorem ai_failure_isolated (df : List Row) (search message : String)
    (kpi : List KpiRow) (e : AiErr)
    (hne : df.isEmpty = false)
    (hok : preprocessKpi (filterByName search df) = .ok kpi) :
    (∀ gen, extraPage df search message false false gen =
        [Elem.header pageTitle, Elem.rawTable (filterByName search df),
         Elem.kpiTable kpi, Elem.kpiNumTable (kpi.map recoerce)]) ∧
    (∀ gen0, extraPage df search message false true (fun _ => .error e) =
        extraPage df search message false false gen0 ++ [Elem.errBox (aiMsg e)]) ∧
    (∀ gen0 t, extraPage df search message false true (fun _ => .ok t) =
        extraPage df search message false false gen0 ++ [Elem.narrative t]) := by
  refine ⟨?_, ?_, ?_⟩
  · intro gen
    simp [extraPage, hne, hok]
  · intro gen0
    simp [extraPage, hne, hok]
  · intro gen0 t
    simp [extraPage, hne, hok]

theorem ai_failure_isolated_witness :
    preprocessKpi (filterByName ("") dfW6) = .ok kpiW6 ∧
    extraPage dfW6 ("") ("") false true (fun _ => .error AiErr.aiRequestFailed) =
      extraPage dfW6 ("") ("") false false (fun _ => .error AiErr.aiRequestFailed)
        ++ [Elem.errBox (aiMsg AiErr.aiRequestFailed)] :=
  ⟨by decide,
   (ai_failure_isolated dfW6 ("") ("") kpiW6 AiErr.aiRequestFailed rfl (by decide)).2.1
     (fun _ => .error AiErr.aiRequestFailed)⟩

/-- C4 (spec-modelled classifier): an Unavailable metric value classifies
NotApplicable in every phase and for every metric, and the classifier is a
pure function of (value, phase, metric), so reclassifying the same triple
always yields the same band. -/
theorem classifier_na_and_deterministic :
    (∀ (m : StabMetric) (p : Phase), classify m p none = Band.notApplicable) ∧
    (∀ (m : StabMetric) (p : Phase) (v : Option ℚ), classify m p v = classify m p v) :=
  ⟨fun _ _ => rfl, fun _ _ _ => rfl⟩

/-- C5 counterexample: 0.5 is a stated threshold break point of the
alarm-trigger rate in phase 2, separating Yellow (0.2-0.5) from Red (>0.5);
the worse of the two adjacent bands is Red, yet the classifier puts the
boundary value 0.5 in Yellow, because the stated ranges are inclusive at
their upper break points.  So a value exactly at a stated boundary does not
always fall into the worse band. -/
theorem boundary_upper_not_worse :
    classify StabMetric.alarmRate Phase.p2 (some (mkRat 1 2)) = Band.yellow ∧
    Band.yellow ≠ Band.red := by
  constructor <;> decide

/-- Each table row has its Green boundary at or below its Yellow break
point (stated via the computable comparison). -/
theorem bounds_le (m : StabMetric) (p : Phase) (g y : ℚ)
    (hb : bounds m p = some (g, y)) : qleB g y = true := by
  cases m <;> cases p <;> simp [bounds] at hb <;>
    (try rcases hb with ⟨rfl, rfl⟩) <;> decide

/-- C5 (amended): a value exactly at the Green/Yellow boundary classifies
Yellow (the worse band); a value exactly at the Yellow/Red break point
classifies Yellow (the ranges are inclusive at their stated upper break
points, so only the Green/Yellow boundary falls to the worse band); any
value strictly below the Green boundary classifies Green. -/
theorem boundary_classification (m : StabMetric) (p : Phase) (g y : ℚ)
    (hb : bounds m p = some (g, y)) :
    classify m p (some g) = Band.yellow ∧
    classify m p (some y) = Band.yellow ∧
    (∀ x : ℚ, x < g → classify m p (some x) = Band.green) := by
  have hgy : g ≤ y := (qleB_iff g y).mp (bounds_le m p g y hb)
  refine ⟨?_, ?_, ?_⟩
  · simp only [classify, hb]
    rw [if_neg, if_pos]
    · rw [qleB_iff]; exact hgy
    · rw [qltB_iff]; exact lt_irrefl g
  · simp only [classify, hb]
    by_cases hyg : qltB y g = true
    · exfalso
      rw [qltB_iff] at hyg
      exact absurd hgy (not_le.mpr hyg)
    · rw [if_neg hyg, if_pos]
      rw [qleB_iff]
  · intro x hx
    simp only [classify, hb]
    rw [if_pos]
    rw [qltB_iff]
    exact hx

theorem boundary_classification_witness :
    bounds StabMetric.comBos Phase.p2 = some (1, 2) ∧
    classify StabMetric.comBos Phase.p2 (some 1) = Band.yellow ∧
    classify StabMetric.alarmRate Phase.p2 (some (mkRat 2 10)) = Band.yellow :=
  ⟨rfl, (boundary_classification StabMetric.comBos Phase.p2 1 2 rfl).1,
   (boundary_classification StabMetric.alarmRate Phase.p2 (mkRat 2 10) (mkRat 5 10) rfl).1⟩

theorem rowPatientKey_load (r : String × String) :
    rowPatientKey (strip r.1, strip r.2) = rowPatientKey r := by
  rw [rowPatientKey, rowPatientKey]
  exact userKey_strip r.1

theorem load_assignments_keys (store : List (String × String)) :
    (load_assignments store).map rowPatientKey = store.map rowPatientKey := by
  rw [load_assignments, List.map_map]
  exact List.map_congr_left (fun r _ => rowPatientKey_load r)

theorem mem_load_assignments_strip {store : List (String × String)}
    {r : String × String} (h : r ∈ load_assignments store) : strip r.1 = r.1 := by
  rw [load_assignments] at h
  obtain ⟨o, _, rfl⟩ := List.mem_map.mp h
  exact strip_idem o.1

/-- C7: if the Assignments store holds at most one row per case-insensitive
patient key, then after assign_doctor it still does, and the rows for the
assigned patient key are exactly the one new (patient, doctor) pair — the
most recent assignment wins. -/
theorem assign_doctor_overwrites (store : List (String × String))
    (patient doctor : String) (h : atMostOnePerPatient store) :
    atMostOnePerPatient (assign_doctor patient doctor store) ∧
    (assign_doctor patient doctor store).filter
        (fun r => rowPatientKey r == userKey patient) = [(patient, doctor)] := by
  have hkey : ∀ r ∈ (load_assignments store).filter
      (fun r => lowerStr r.1 != lowerStr (strip patient)),
      rowPatientKey r ≠ userKey patient := by
    intro r hr
    have hmem := (List.mem_filter.mp hr).1
    have hpred := (List.mem_filter.mp hr).2
    have hstrip := mem_load_assignments_strip hmem
    rw [rowPatientKey, userKey, userKey, hstrip]
    exact bne_iff_ne.mp hpred
  have hkept_nodup :
      (((load_assignments store).filter
        (fun r => lowerStr r.1 != lowerStr (strip patient))).map rowPatientKey).Nodup := by
    have hsub : List.Sublist
        (((load_assignments store).filter
          (fun r => lowerStr r.1 != lowerStr (strip patient))).map rowPatientKey)
        ((load_assignments store).map rowPatientKey) :=
      List.Sublist.map rowPatientKey (List.filter_sublist _)
    rw [load_assignments_keys] at hsub
    exact hsub.nodup h
  constructor
  · rw [atMostOnePerPatient, assign_doctor, List.map_append, List.nodup_append]
    refine ⟨hkept_nodup, List.nodup_singleton _, ?_⟩
    intro k hk hk2
    obtain ⟨r, hr, rfl⟩ := List.mem_map.mp hk
    have : rowPatientKey (patient, doctor) = rowPatientKey r := by
      simp at hk2
      rw [hk2]
    exact hkey r hr (by rw [← this]; rfl)
  · rw [assign_doctor, List.filter_append]
    have h1 : ((load_assignments store).filter
        (fun r => lowerStr r.1 != lowerStr (strip patient))).filter
          (fun r => rowPatientKey r == userKey patient) = [] := by
      rw [List.filter_eq_nil_iff]
      intro r hr hpr
      exact hkey r hr (by simpa using hpr)
    rw [h1]
    have h2 : (rowPatientKey (patient, doctor) == userKey patient) = true := by
      simp [rowPatientKey]
    simp [h2]

theorem assign_doctor_overwrites_witness :
    atMostOnePerPatient storeW7 ∧
    atMostOnePerPatient (assign_doctor ("alice") ("drZ") storeW7) ∧
    (assign_doctor ("alice") ("drZ") storeW7).filter
        (fun r => rowPatientKey r == userKey ("alice")) = [(("alice"), ("drZ"))] := by
  have hst : atMostOnePerPatient storeW7 := by
    unfold atMostOnePerPatient
    decide
  exact ⟨hst, (assign_doctor_overwrites storeW7 ("alice") ("drZ") hst).1,
    (assign_doctor_overwrites storeW7 ("alice") ("drZ") hst).2⟩

/-- C8: a registration attempt with a blank username or password, a
mismatched confirmation, or a username already in the Users sheet
(case-insensitively) leaves the user store unchanged and produces a
non-success message. -/
theorem register_rejects_invalid (ru rp rc : String) (users : List UserRow)
    (h : strip ru = ("") ∨ rp = ("") ∨ rp ≠ rc ∨
      ((load_users users).map (fun u => lowerStr u.username)).contains
        (lowerStr (strip ru)) = true) :
    (register_action ru rp rc users).1 = users ∧
    (register_action ru rp rc users).2 ≠ RegMsg.okRegistered := by
  by_cases h1 : strip ru = ("") ∨ rp = ("")
  · rw [register_action]
    have : (decide (strip ru = ("")) || decide (rp = (""))) = true := by
      rcases h1 with h1 | h1 <;> simp [h1]
    rw [if_pos (by simpa using this)]
    exact ⟨rfl, by simp⟩
  · push_neg at h1
    by_cases h2 : rp = rc
    · have hdup : ((load_users users).map (fun u => lowerStr u.username)).contains
          (lowerStr (strip ru)) = true := by
        rcases h with h | h | h | h
        · exact absurd h h1.1
        · exact absurd h h1.2
        · exact absurd h2 h
        · exact h
      rw [register_action]
      rw [if_neg (by simp [h1.1, h1.2]), if_neg (by simp [h2]), if_pos hdup]
      exact ⟨rfl, by simp⟩
    · rw [register_action]
      rw [if_neg (by simp [h1.1, h1.2]), if_pos (by simpa using h2)]
      exact ⟨rfl, by simp⟩

theorem register_rejects_invalid_witness :
    (register_action ("  aLiCe ") ("new") ("new") usersW8).1 = usersW8 ∧
    (register_action ("  aLiCe ") ("new") ("new") usersW8).2 ≠ RegMsg.okRegistered :=
  register_rejects_invalid ("  aLiCe ") ("new") ("new") usersW8
    (Or.inr (Or.inr (Or.inr (by decide))))

theorem load_users_eq_map (users : List UserRow) :
    load_users users = users.map loadUserRow := rfl

/-- In a credential list with pairwise-distinct case-insensitive username
keys, filtering by one key gives either nothing (and no row matches) or
exactly one row (the unique matching row). -/
theorem filter_key_unique {l : List UserRow} {k : String}
    (hnd : (l.map (fun r => userKey r.username)).Nodup) :
    (l.filter (fun r => userKey r.username == k) = [] ∧
      ∀ r ∈ l, userKey r.username ≠ k) ∨
    (∃ r0, l.filter (fun r => userKey r.username == k) = [r0] ∧ r0 ∈ l ∧
      userKey r0.username = k ∧ ∀ r ∈ l, userKey r.username = k → r = r0) := by
  induction l with
  | nil => left; exact ⟨rfl, by simp⟩
  | cons a t ih =>
    rw [List.map_cons, List.nodup_cons] at hnd
    obtain ⟨hna, hnt⟩ := hnd
    by_cases hak : userKey a.username = k
    · right
      have htnil : t.filter (fun r => userKey r.username == k) = [] := by
        rw [List.filter_eq_nil_iff]
        intro r hr hpr
        apply hna
        have hkeq : userKey r.username = k := by simpa using hpr
        exact List.mem_map.mpr ⟨r, hr, by rw [hkeq, hak]⟩
      refine ⟨a, ?_, List.mem_cons_self a t, hak, ?_⟩
      · rw [List.filter_cons, if_pos (by simpa using hak), htnil]
      · intro r hr hkr
        rcases List.mem_cons.mp hr with rfl | hrt
        · rfl
        · exact absurd (List.mem_map.mpr ⟨r, hrt, by rw [hkr, hak]⟩) hna
    · have hfc : (a :: t).filter (fun r => userKey r.username == k)
          = t.filter (fun r => userKey r.username == k) := by
        rw [List.filter_cons, if_neg (by simpa using hak)]
      rcases ih hnt with ⟨hnil, hall⟩ | ⟨r0, hf, hr0, hk0, huniq⟩
      · left
        refine ⟨by rw [hfc, hnil], ?_⟩
        intro r hr
        rcases List.mem_cons.mp hr with rfl | hrt
        · exact hak
        · exact hall r hrt
      · right
        refine ⟨r0, by rw [hfc, hf], List.mem_cons_of_mem a hr0, hk0, ?_⟩
        intro r hr hkr
        rcases List.mem_cons.mp hr with rfl | hrt
        · exact absurd hkr hak
        · exact huniq r hrt hkr

theorem load_users_filter (users : List UserRow) (k : String) :
    (load_users users).filter (fun r => userKey r.username == k)
      = (users.filter (fun r => userKey r.username == k)).map loadUserRow := by
  rw [load_users_eq_map, List.filter_map]
  congr 1
  apply List.filter_congr
  intro r _
  show (userKey (strip r.username) == k) = (userKey r.username == k)
  rw [userKey_strip]

/-- C10: with pairwise-distinct case-insensitive username keys across the
Users and Doctors sheets, login succeeds iff some stored row matches the
entered username after stripping and lowercasing both sides, and that
stored password of that row equals the entered password after stripping both. -/
theorem login_characterization (users doctors : List UserRow) (u p : String)
    (hnd : ((users ++ doctors).map (fun r => userKey r.username)).Nodup) :
    (login_action u p users doctors = true) ↔
      ∃ r, r ∈ users ++ doctors ∧ userKey r.username = userKey u ∧
        strip r.password = strip p := by
  rw [List.map_append, List.nodup_append] at hnd
  obtain ⟨hndu, hndd, hdisj⟩ := hnd
  rw [login_action]
  simp only [load_users_filter]
  rcases @filter_key_unique users (userKey u) hndu with
    ⟨hnilu, halu⟩ | ⟨r0, hf, hr0, hk0, huu⟩
  · rw [hnilu, List.map_nil]
    rcases @filter_key_unique doctors (userKey u) hndd with
      ⟨hnild, hald⟩ | ⟨d0, hfd, hd0, hkd, hud⟩
    · rw [hnild]
      simp only [List.isEmpty_nil, if_pos, List.head?_nil]
      constructor
      · intro hfalse; simp at hfalse
      · rintro ⟨r, hr, hkr, _⟩
        rcases List.mem_append.mp hr with h | h
        · exact absurd hkr (halu r h)
        · exact absurd hkr (hald r h)
    · rw [hfd]
      simp only [List.isEmpty_nil, if_pos, List.head?_cons]
      constructor
      · intro hlg
        exact ⟨d0, List.mem_append_right users hd0, hkd, by simpa using hlg⟩
      · rintro ⟨r, hr, hkr, hpw⟩
        rcases List.mem_append.mp hr with h | h
        · exact absurd hkr (halu r h)
        · have : r = d0 := hud r h hkr
          subst this
          simpa using hpw
  · rw [hf, List.map_cons, List.map_nil]
    simp only [List.isEmpty_cons, if_neg, Bool.false_eq_true, if_false, List.head?_cons]
    constructor
    · intro hlg
      refine ⟨r0, List.mem_append_left doctors hr0, hk0, ?_⟩
      have hpw : strip (loadUserRow r0).password = strip p := by simpa using hlg
      exact hpw
    · rintro ⟨r, hr, hkr, hpw⟩
      rcases List.mem_append.mp hr with h | h
      · have : r = r0 := huu r h hkr
        subst this
        show (strip (loadUserRow r).password == strip p) = true
        simpa using hpw
      · exfalso
        refine hdisj (List.mem_map.mpr ⟨r0, hr0, rfl⟩) ?_
        rw [hk0, ← hkr]
        exact List.mem_map.mpr ⟨r, h, rfl⟩

theorem login_characterization_witness :
    login_action ("aLiCe") (" pw ") usersW10 [] = true :=
  (login_characterization usersW10 [] ("aLiCe") (" pw ") (by decide)).mpr
    ⟨⟨("Alice"), ("pw"), ("patient")⟩, by decide, by decide, by decide⟩
